import Mathlib

/-!
Shallow embedding of the bitstamp-exc client library (index.js) and proofs
about its pagination, normalization, validation and error-handling logic.

Machine integers do not occur: all JavaScript numbers the claims touch are
either exact decimal amounts (embedded as rationals), millisecond timestamps
(embedded as integers) or small non-negative counters (embedded as naturals).
Date parsing of datetime strings is abstracted to the parsed millisecond
value that JavaScript Date comparison operates on.
-/

namespace Bitstamp

/- ===============   Error model   =============== -/

/-- Modelled from the spec: lib/error_codes.js is not in the sources; the
spec's error taxonomy section fixes the enumeration of machine-readable
codes used by index.js (EXCHANGE_SERVER_ERROR, MODULE_ERROR,
INSUFFICIENT_FUNDS). -/
inductive ErrorCode
  | EXCHANGE_SERVER_ERROR
  | MODULE_ERROR
  | INSUFFICIENT_FUNDS
deriving DecidableEq, Repr

/-- A JavaScript error value as surfaced to a callback by index.js: either a
bare string (the literal passed to `callback` in `_post` when credentials are
missing) or an Error object carrying a message, an optional machine-readable
code and an optional attached cause. -/
inductive JsError
  | str (s : String)
  | err (message : String) (code : Option ErrorCode) (cause : Option JsError)

/-- constructError from index.js: builds an Error with the message, attaches
the pre-declared error code, and attaches the original cause when one is
provided (the JS guard `if errorCause` skips only absent causes here, since
every actual cause passed is a non-empty object or string). -/
def constructError (message : String) (errorCode : ErrorCode) (errorCause : Option JsError) : JsError :=
  JsError.err message (some errorCode) errorCause

/-- Whether a surfaced error value carries a machine-readable code. -/
def hasCode : JsError → Bool
  | JsError.err _ (some _) _ => true
  | _ => false

/- ===============   Currency conversion   =============== -/

/-- The two currencies the library deals in. -/
inductive Cur
  | BTC
  | USD
deriving DecidableEq, Repr

/-- Modelled from the spec: the Currency collaborator has a fixed
decimal-places table (subunits: satoshi-like for BTC, cents for USD). -/
def decimalsOf : Cur → Nat
  | Cur.BTC => 8
  | Cur.USD => 2

/-- Modelled from the spec: lib/currency.js toSmallestSubunit converts a
human-readable decimal amount into the integer smallest-subunit amount of the
given currency, using the fixed decimal-places table. Every amount the
library feeds it carries at most that many decimals, for which the scaling
is exact; the embedding floors any hypothetical excess precision. -/
def toSmallestSubunit (amount : ℚ) (c : Cur) : ℤ :=
  amount.num * (10 : ℤ) ^ decimalsOf c / (amount.den : ℤ)

/-- Modelled from the spec: lib/currency.js fromSmallestSubunit converts an
integer smallest-subunit amount back into the main-unit decimal amount. -/
def fromSmallestSubunit (amount : ℚ) (c : Cur) : ℚ :=
  amount / (10 : ℚ) ^ decimalsOf c

/- ===============   Constants   =============== -/

/-- The deposit transaction type code from lib/constants.js. -/
def TYPE_DEPOSIT : Nat := 0

/-- The withdrawal transaction type code from lib/constants.js. -/
def TYPE_WITHDRAWAL : Nat := 1

/-- The market trade transaction type code from lib/constants.js. -/
def TYPE_MARKET_TRADE : Nat := 2

/-- The sell order side from lib/constants.js: the endpoint name used when
placing a sell and the orderType recorded on raw trades. -/
def TYPE_SELL_ORDER : String := "sell"

/-- The buy order side from lib/constants.js. -/
def TYPE_BUY_ORDER : String := "buy"

/-- JavaScript String.prototype.toUpperCase restricted to the ASCII currency
codes the library compares: uppercase each character. -/
def jsToUpper (s : String) : String := String.mk (s.data.map Char.toUpper)

/-- JavaScript String.prototype.toLowerCase restricted to the ASCII status
strings the library compares: lowercase each character. -/
def jsToLower (s : String) : String := String.mk (s.data.map Char.toLower)

/- ===============   Paginator (iterateRequestTxs)   =============== -/

/-- A raw user transaction as returned by the user_transactions endpoint.
The datetime string reaches the paginator only through its parsed Date
millisecond value, which is what is embedded here; btc, usd and fee are the
parsed decimal amounts. -/
structure RawUserTx where
  id : Nat
  datetime : Int
  type : Nat
  btc : ℚ
  usd : ℚ
  fee : ℚ
  order_id : Nat
deriving DecidableEq, Repr

/-- The request page limit constant BITSTAMP_REQUEST_LIMIT of
iterateRequestTxs. -/
def BITSTAMP_REQUEST_LIMIT : Nat := 100

/-- The responseLength variable of iterateRequestTxs, initialized to 1000 and
never reassigned; it is the amount the offset is advanced by per iteration. -/
def responseLength : Nat := 1000

/-- The body of the `res.every` scan in iterateRequestTxs: walk the page in
order; on the first transaction whose parsed datetime is strictly below
earliestDate, stop (returning false from the `every` callback) and clear the
continueIteration flag; every transaction seen before that is pushed onto the
accumulator. Returns the pushed transactions (in page order) and the value
the scan leaves in continueIteration (which was true on entry). -/
def scanTxs (earliestDate : Int) : List RawUserTx → List RawUserTx × Bool
  | [] => ([], true)
  | tx :: rest =>
    if earliestDate > tx.datetime then
      ([], false)
    else
      let r := scanTxs earliestDate rest
      (tx :: r.1, r.2)

/-- The mutable loop state of iterateRequestTxs: the transactionsAll
accumulator, the running offset, and the continueIteration flag. -/
structure IterState where
  transactionsAll : List RawUserTx
  offset : Nat
  continueIteration : Bool
deriving Repr

/-- One execution of the `post` closure of iterateRequestTxs against an
exchange `fetch` function mapping (limit, offset) to a page or an error: on
error the iteration aborts with that error; on success the page is scanned
against earliestDate, the accepted transactions are appended to the
accumulator, a short page (fewer than BITSTAMP_REQUEST_LIMIT transactions)
clears continueIteration, and the offset is advanced by responseLength. -/
def postStep (fetch : Nat → Nat → Except JsError (List RawUserTx)) (earliestDate : Int)
    (s : IterState) : Except JsError IterState :=
  match fetch BITSTAMP_REQUEST_LIMIT s.offset with
  | Except.error e => Except.error e
  | Except.ok res =>
    let scanned := scanTxs earliestDate res
    let contAfterScan := scanned.2
    let contAfterShort := if res.length < BITSTAMP_REQUEST_LIMIT then false else contAfterScan
    Except.ok
      { transactionsAll := s.transactionsAll ++ scanned.1
        offset := s.offset + responseLength
        continueIteration := contAfterShort }

/-- The `done` wrapper of iterateRequestTxs applied to a failing iteration:
the underlying error is wrapped into a listing error. -/
def listingError (cause : JsError) : JsError :=
  constructError "Trades could not be listed." ErrorCode.MODULE_ERROR (some cause)

/-- The async.doWhilst loop of iterateRequestTxs, with explicit fuel bounding
the number of iterations: run `post`, abort through `done` on error, and
repeat while continueIteration remains set; on exit return the accumulator.
`none` means the fuel was exhausted before the loop exited. -/
def iterateAux (fetch : Nat → Nat → Except JsError (List RawUserTx)) (earliestDate : Int) :
    Nat → IterState → Option (Except JsError (List RawUserTx))
  | 0, _ => none
  | fuel + 1, s =>
    match postStep fetch earliestDate s with
    | Except.error e => some (Except.error (listingError e))
    | Except.ok s' =>
      if s'.continueIteration then
        iterateAux fetch earliestDate fuel s'
      else
        some (Except.ok s'.transactionsAll)

/-- iterateRequestTxs from index.js: start the doWhilst cycle from an empty
accumulator, offset 0 and continueIteration set. -/
def iterateRequestTxs (fetch : Nat → Nat → Except JsError (List RawUserTx)) (earliestDate : Int)
    (fuel : Nat) : Option (Except JsError (List RawUserTx)) :=
  iterateAux fetch earliestDate fuel { transactionsAll := [], offset := 0, continueIteration := true }

/- ===============   Transaction normalizer   =============== -/

/-- The normalized transaction object constructed by
constructTransactionObject. The timestamp field (an ISO-8601 rendering of the
datetime string via Date) is not referenced by any claim and is left out of
the embedding; the remaining fields follow the source. -/
structure NormalizedTransaction where
  externalId : String
  state : String
  amount : ℤ
  currency : String
  type : String
  raw : RawUserTx
deriving DecidableEq, Repr

/-- constructTransactionObject from index.js: externalId is the stringified
id, state is always completed, type is deposit exactly for type code 0 and
withdrawal otherwise; if parseFloat of the btc field is exactly zero the
transaction is USD-denominated with the usd amount in subunits, otherwise it
is BTC-denominated with the btc amount in subunits. -/
def constructTransactionObject (currentTx : RawUserTx) : NormalizedTransaction :=
  let tx : NormalizedTransaction :=
    { externalId := toString currentTx.id
      state := "completed"
      amount := 0
      currency := ""
      type := if currentTx.type = TYPE_DEPOSIT then "deposit" else "withdrawal"
      raw := currentTx }
  if currentTx.btc = 0 then
    { tx with amount := toSmallestSubunit currentTx.usd Cur.USD, currency := "USD" }
  else
    { tx with amount := toSmallestSubunit currentTx.btc Cur.BTC, currency := "BTC" }

/-- listTransactions from index.js, after the boundary date has been derived
from the optional latest known transaction (that derivation parses a
datetime string and is abstracted to its millisecond value): run the
paginator, forward its error unchanged, and otherwise keep only deposits and
withdrawals and normalize each. -/
def listTransactions (fetch : Nat → Nat → Except JsError (List RawUserTx)) (latestTxDate : Int)
    (fuel : Nat) : Option (Except JsError (List NormalizedTransaction)) :=
  match iterateRequestTxs fetch latestTxDate fuel with
  | none => none
  | some (Except.error e) => some (Except.error e)
  | some (Except.ok txs) =>
    some (Except.ok (((txs.filter fun tx => tx.type = TYPE_DEPOSIT ∨ tx.type = TYPE_WITHDRAWAL)).map
      constructTransactionObject))

/- ===============   Response interpreter (insufficient-funds patterns)   =============== -/

/-- Whether a character is matched by the regex class \d. -/
def isDigitChar (c : Char) : Bool := '0'.val ≤ c.val && c.val ≤ '9'.val

/-- Whether a character is matched by the regex class with uppercase A to Z. -/
def isUpperAZ (c : Char) : Bool := 'A'.val ≤ c.val && c.val ≤ 'Z'.val

/-- Consume a maximal run of digits. -/
def dropDigits : List Char → List Char
  | c :: cs => if isDigitChar c then dropDigits cs else c :: cs
  | [] => []

/-- Match the regex fragment with one or more digits (greedy), returning the
rest of the input on success. -/
def matchDigits1 : List Char → Option (List Char)
  | c :: cs => if isDigitChar c then some (dropDigits cs) else none
  | [] => none

/-- Match a literal character sequence. -/
def matchLit : List Char → List Char → Option (List Char)
  | [], cs => some cs
  | l :: ls, c :: cs => if c = l then matchLit ls cs else none
  | _ :: _, [] => none

/-- Match the regex fragment of digits followed by an optional dot-and-digits
group. Greedy matching with backtracking coincides with this deterministic
scheme: a shorter digit run would leave a digit where the pattern next needs
a dot or a space, so only the maximal run can succeed, and the optional group
is taken exactly when a dot directly followed by a digit is present. -/
def matchNumber (cs : List Char) : Option (List Char) := do
  let rest ← matchDigits1 cs
  match rest with
  | '.' :: afterDot =>
    match matchDigits1 afterDot with
    | some rest2 => pure rest2
    | none => pure rest
  | _ => pure rest

/-- Match exactly three uppercase letters. -/
def matchUpper3 : List Char → Option (List Char)
  | a :: b :: c :: cs => if isUpperAZ a && isUpperAZ b && isUpperAZ c then some cs else none
  | _ => none

/-- Match a single arbitrary character (an unescaped regex dot). -/
def matchAny : List Char → Option (List Char)
  | _ :: cs => some cs
  | [] => none

/-- REGEX_PATTERN_SELL_ERROR_INSUFFICIENT_FUNDS.test from index.js: the
anchored pattern is a literal prefix, a decimal number, a space, a
three-uppercase-letter currency code, the literal word available, one
arbitrary character (the unescaped dot), the literal balance sentence,
one arbitrary character, end of string. -/
def sellInsufficientTest (s : String) : Bool :=
  (do
    let cs ← matchLit "You have only ".data s.data
    let cs ← matchNumber cs
    let cs ← matchLit " ".data cs
    let cs ← matchUpper3 cs
    let cs ← matchLit " available".data cs
    let cs ← matchAny cs
    let cs ← matchLit " Check your account balance for details".data cs
    let cs ← matchAny cs
    pure cs) = some []

/-- REGEX_PATTERN_BUY_ERROR_INSUFFICIENT_FUNDS.test from index.js: like the
sell pattern but prefixed by the amount needed to open the order. -/
def buyInsufficientTest (s : String) : Bool :=
  (do
    let cs ← matchLit "You need ".data s.data
    let cs ← matchNumber cs
    let cs ← matchLit " ".data cs
    let cs ← matchUpper3 cs
    let cs ← matchLit " to open that order".data cs
    let cs ← matchAny cs
    let cs ← matchLit " You have only ".data cs
    let cs ← matchNumber cs
    let cs ← matchLit " ".data cs
    let cs ← matchUpper3 cs
    let cs ← matchLit " available".data cs
    let cs ← matchAny cs
    let cs ← matchLit " Check your account balance for details".data cs
    let cs ← matchAny cs
    pure cs) = some []

/-- The parsed error field of a response body: the stringified raw error
payload (used as the cause of the generic server error) and, when the body
has an __all__ list, its messages. -/
structure ParsedErrorBody where
  rawStringified : String
  allErrors : Option (List String)
deriving DecidableEq, Repr

/-- The data.error branch of Bitstamp.prototype._request: construct the
generic exchange server error wrapping the stringified payload; when the
body has an __all__ list, look for the first message matching the buy-side
insufficient-funds pattern, falling back to the first message matching the
sell-side pattern (lodash find, combined with JavaScript or); on a match
replace the generic error with an insufficient-funds error carrying the
matched message verbatim and no cause. -/
def interpretErrorBody (e : ParsedErrorBody) : JsError :=
  let generic := constructError
    "There is an error in the body of the response from the exchange service..."
    ErrorCode.EXCHANGE_SERVER_ERROR
    (some (JsError.err e.rawStringified none none))
  match e.allErrors with
  | none => generic
  | some allErrors =>
    match (allErrors.find? fun msg => buyInsufficientTest msg).orElse
        (fun _ => allErrors.find? fun msg => sellInsufficientTest msg) with
    | some msg => constructError msg ErrorCode.INSUFFICIENT_FUNDS none
    | none => generic

/- ===============   getTrade (order normalizer)   =============== -/

/-- One constituent fill of an order as returned by the order_status
endpoint, with its decimal btc, usd and fee amounts. -/
structure OrderFill where
  btc : ℚ
  usd : ℚ
  fee : ℚ
deriving DecidableEq, Repr

/-- The order_status response body: the exchange-reported status string and
the list of constituent fills. -/
structure OrderStatusRes where
  status : String
  transactions : List OrderFill
deriving DecidableEq, Repr

/-- The normalized trade object built by getTrade (the raw field, which holds
the response with the echoed id added, is carried as the response). -/
structure NormalizedTrade where
  externalId : String
  type : String
  state : String
  baseAmount : ℤ
  quoteAmount : ℤ
  baseCurrency : String
  quoteCurrency : String
  feeAmount : ℤ
  feeCurrency : String
  raw : OrderStatusRes
deriving DecidableEq, Repr

/-- The normalization performed by Bitstamp.prototype.getTrade on a
successful order_status response, given the orderType taken from the caller's
trade.raw (the source guard has already ensured it is the sell or buy
constant): state is closed exactly when the lowercased status is finished;
each fill's btc amount is converted to BTC subunits and negated for a sell
order; each fill's usd amount is converted to USD subunits and negated for a
buy order; each fill's fee is converted to USD subunits; the three lists are
summed. -/
def getTradeNormalize (orderType : String) (tradeId : Nat) (res : OrderStatusRes) :
    NormalizedTrade :=
  let baseAmounts := res.transactions.map fun tx =>
    let baseAmount := toSmallestSubunit tx.btc Cur.BTC
    if orderType = TYPE_SELL_ORDER then -baseAmount else baseAmount
  let quoteAmounts := res.transactions.map fun tx =>
    let quoteAmount := toSmallestSubunit tx.usd Cur.USD
    if orderType = TYPE_BUY_ORDER then -quoteAmount else quoteAmount
  let feeAmounts := res.transactions.map fun tx => toSmallestSubunit tx.fee Cur.USD
  { externalId := toString tradeId
    type := "limit"
    state := if jsToLower res.status = "finished" then "closed" else "open"
    baseAmount := baseAmounts.sum
    quoteAmount := quoteAmounts.sum
    baseCurrency := "BTC"
    quoteCurrency := "USD"
    feeAmount := feeAmounts.sum
    feeCurrency := "USD"
    raw := res }

/- ===============   JavaScript values for placeTrade arguments   =============== -/

/-- The JavaScript values relevant to placeTrade's argument validation: an
absent argument, null, a finite number (as a rational), NaN (whose typeof is
still number), or a string. -/
inductive JSVal
  | undef
  | null
  | num (q : ℚ)
  | nan
  | str (s : String)
deriving DecidableEq, Repr

/-- The JavaScript `typeof v === 'number'` test. -/
def isNumberType : JSVal → Bool
  | JSVal.num _ => true
  | JSVal.nan => true
  | _ => false

/-- The JavaScript comparison `v < 0` (false on NaN and on non-numbers after
the typeof guard). -/
def jsLtZero : JSVal → Bool
  | JSVal.num q => q < 0
  | _ => false

/- ===============   Endpoint methods before/after the network call   =============== -/

/-- The observable first step of an endpoint method: either a callback with
an error before any network request, or a network request carrying the
continuation that will normalize the eventual response. -/
inductive EndpointStep (α : Type)
  | fail (e : JsError)
  | callNet (k : α)

/-- The raw ticker response fields (parseFloat already applied). -/
structure TickerRes where
  bid : ℚ
  ask : ℚ
  last : ℚ
  high : ℚ
  low : ℚ
  vwap : ℚ
  volume : ℚ
deriving DecidableEq, Repr

/-- The normalized ticker object. -/
structure Ticker where
  baseCurrency : String
  quoteCurrency : String
  bid : ℚ
  ask : ℚ
  lastPrice : ℚ
  high24Hours : ℚ
  low24Hours : ℚ
  vwap24Hours : ℚ
  volume24Hours : ℤ
deriving DecidableEq, Repr

/-- Bitstamp.prototype.getTicker up to the network call: uppercase both
currency codes, fail with the unsupported-pair error unless they are BTC and
USD, and otherwise issue the GET with the continuation that builds the
ticker object from the response. -/
def getTickerStep (baseCurrency quoteCurrency : String) : EndpointStep (TickerRes → Ticker) :=
  let base := jsToUpper baseCurrency
  let quote := jsToUpper quoteCurrency
  if base ≠ "BTC" ∨ quote ≠ "USD" then
    EndpointStep.fail (constructError
      "Bitstamp only supports BTC and USD as base and quote currencies, respectively."
      ErrorCode.MODULE_ERROR none)
  else
    EndpointStep.callNet fun res =>
      { baseCurrency := base
        quoteCurrency := quote
        bid := res.bid
        ask := res.ask
        lastPrice := res.last
        high24Hours := res.high
        low24Hours := res.low
        vwap24Hours := res.vwap
        volume24Hours := toSmallestSubunit res.volume Cur.BTC }

/-- One raw order book entry: a price and a base amount, as parsed decimal
numbers. -/
structure RawBookEntry where
  price : ℚ
  amount : ℚ
deriving DecidableEq, Repr

/-- The raw order book response. -/
structure OrderBookRes where
  bids : List RawBookEntry
  asks : List RawBookEntry
deriving DecidableEq, Repr

/-- A normalized order book entry. -/
structure BookEntry where
  price : ℚ
  baseAmount : ℤ
deriving DecidableEq, Repr

/-- The normalized order book object. -/
structure OrderBook where
  baseCurrency : String
  quoteCurrency : String
  bids : List BookEntry
  asks : List BookEntry
deriving DecidableEq, Repr

/-- Bitstamp.prototype.getOrderBook up to the network call: same pair
validation as getTicker, then the GET with the continuation converting every
raw entry, preserving order. -/
def getOrderBookStep (baseCurrency quoteCurrency : String) : EndpointStep (OrderBookRes → OrderBook) :=
  let base := jsToUpper baseCurrency
  let quote := jsToUpper quoteCurrency
  if base ≠ "BTC" ∨ quote ≠ "USD" then
    EndpointStep.fail (constructError
      "Bitstamp only supports BTC and USD as base and quote currencies, respectively."
      ErrorCode.MODULE_ERROR none)
  else
    EndpointStep.callNet fun res =>
      let convertRawEntry := fun (entry : RawBookEntry) =>
        { price := entry.price
          baseAmount := toSmallestSubunit entry.amount Cur.BTC : BookEntry }
      { baseCurrency := base
        quoteCurrency := quote
        bids := res.bids.map convertRawEntry
        asks := res.asks.map convertRawEntry }

/-- The POST request issued by placeTrade: the endpoint is the order type
and the form carries the main-unit amount and the limit price as given. -/
structure PlaceTradeRequest where
  orderType : String
  amountMainUnit : ℚ
  price : JSVal
deriving DecidableEq, Repr

/-- Bitstamp.prototype.placeTrade up to the network call: uppercase and
validate the currency pair; reject a base amount that is undefined, not of
number type, or exactly zero; reject a limit price that is undefined, not of
number type, or negative; then choose sell for a negative amount and buy
otherwise, negate a sell amount, convert the subunit amount to main units and
issue the POST. A NaN base amount is of number type, unequal to zero and not
negative, so it reaches the request as a buy; the embedding keeps that case
out of the numeric conversion by pattern matching, which only changes the
payload of runs the claims never inspect. -/
def placeTradeStep (baseAmount limitPrice : JSVal) (baseCurrency quoteCurrency : String) :
    EndpointStep PlaceTradeRequest :=
  let base := jsToUpper baseCurrency
  let quote := jsToUpper quoteCurrency
  if base ≠ "BTC" ∨ quote ≠ "USD" then
    EndpointStep.fail (constructError
      "Base and Quote currencies should be BTC and USD, respectively"
      ErrorCode.MODULE_ERROR none)
  else if baseAmount = JSVal.undef ∨ isNumberType baseAmount = false ∨ baseAmount = JSVal.num 0 then
    EndpointStep.fail (constructError "The base amount must be a number." ErrorCode.MODULE_ERROR none)
  else if limitPrice = JSVal.undef ∨ isNumberType limitPrice = false ∨ jsLtZero limitPrice = true then
    EndpointStep.fail (constructError "The limit price must be a positive number."
      ErrorCode.MODULE_ERROR none)
  else
    let orderType := if jsLtZero baseAmount then TYPE_SELL_ORDER else TYPE_BUY_ORDER
    let amountSubUnit : ℚ := match baseAmount with
      | JSVal.num q => if orderType = TYPE_SELL_ORDER then -q else q
      | _ => 0
    EndpointStep.callNet
      { orderType := orderType
        amountMainUnit := fromSmallestSubunit amountSubUnit Cur.BTC
        price := limitPrice }

/- ===============   Authenticated POST precondition and getBalance   =============== -/

/-- The credential fields held by the module: a missing setting is none, and
JavaScript falsiness also treats an empty string as missing. -/
structure Credentials where
  key : Option String
  secret : Option String
  clientId : Option String
deriving DecidableEq, Repr

/-- JavaScript falsiness of an optional string setting. -/
def jsFalsyStr : Option String → Bool
  | none => true
  | some s => s = ""

/-- The credential guard at the top of Bitstamp.prototype._post: when key,
secret or client id is falsy, the callback receives the bare string literal
from the source, which is not an Error object and carries no code. -/
def postCredentialCheck (c : Credentials) : Option JsError :=
  if jsFalsyStr c.key || jsFalsyStr c.secret || jsFalsyStr c.clientId then
    some (JsError.str "Must provide key, secret and client ID to make this API request.")
  else
    none

/-- The raw balance response fields. -/
structure BalanceRes where
  usd_available : ℚ
  btc_available : ℚ
  usd_balance : ℚ
  btc_balance : ℚ
deriving DecidableEq, Repr

/-- The normalized balance object. -/
structure Balance where
  availableUSD : ℤ
  availableBTC : ℤ
  totalUSD : ℤ
  totalBTC : ℤ
deriving DecidableEq, Repr

/-- Bitstamp.prototype.getBalance against a transport outcome: the _post
credential guard fires first and its bare-string error is forwarded to the
caller unchanged; a transport or interpretation error is likewise forwarded;
a successful response is converted field by field to subunits. -/
def getBalance (c : Credentials) (transport : Except JsError BalanceRes) :
    Except JsError Balance :=
  match postCredentialCheck c with
  | some e => Except.error e
  | none =>
    match transport with
    | Except.error e => Except.error e
    | Except.ok res =>
      Except.ok
        { availableUSD := toSmallestSubunit res.usd_available Cur.USD
          availableBTC := toSmallestSubunit res.btc_available Cur.BTC
          totalUSD := toSmallestSubunit res.usd_balance Cur.USD
          totalBTC := toSmallestSubunit res.btc_balance Cur.BTC }

/- ===============   Fixtures   =============== -/

/-- A concrete exchange history of 101 transactions in strictly descending
datetime order, all strictly newer than the epoch-zero boundary. -/
def historyC1 : List RawUserTx :=
  (List.range 101).map fun i =>
    { id := i, datetime := 1000000 - (i : Int), type := 0, btc := 1, usd := 0, fee := 0
      order_id := i }

/-- A faithful exchange for historyC1: a request with a given limit and
offset returns that window of the history, in order, with no transport
errors. -/
def fetchC1 (lim off : Nat) : Except JsError (List RawUserTx) :=
  Except.ok ((historyC1.drop off).take lim)

/-- The final (101st) transaction of historyC1. -/
def lastTxC1 : RawUserTx :=
  { id := 100, datetime := 1000000 - 100, type := 0, btc := 1, usd := 0, fee := 0
    order_id := 100 }

/-- A transaction whose datetime equals the boundary value 500. -/
def txEqBoundary : RawUserTx :=
  { id := 7, datetime := 500, type := 0, btc := 1, usd := 0, fee := 0, order_id := 7 }

/-- A transaction strictly older than the boundary value 500. -/
def txOlder : RawUserTx :=
  { id := 8, datetime := 400, type := 0, btc := 1, usd := 0, fee := 0, order_id := 8 }

/-- The fixture message of the spec's reclassification test. -/
def insufficientFundsFixtureMsg : String :=
  "You have only 0.00000000 BTC available. Check your account balance for details."

/-- A concrete finished sell order with one non-trivial fill. -/
def orderFixture : OrderStatusRes :=
  { status := "Finished", transactions := [{ btc := 2, usd := 650, fee := 1 }] }

/-- Credentials with the API key missing. -/
def credsMissingKey : Credentials :=
  { key := none, secret := some "sec", clientId := some "cli" }

/- ===============   Helper lemmas   =============== -/

/-- Every error outcome of the doWhilst loop is the fixed listing error
wrapping some underlying cause (helper for the listing claims). -/
lemma iterateAux_error_shape (fetch : Nat → Nat → Except JsError (List RawUserTx)) (d : Int) :
    ∀ fuel s e, iterateAux fetch d fuel s = some (Except.error e) → ∃ c, e = listingError c := by
  intro fuel
  induction fuel with
  | zero =>
    intro s e hrun
    simp [iterateAux] at hrun
  | succ n ih =>
    intro s e hrun
    unfold iterateAux at hrun
    cases hp : postStep fetch d s with
    | error c =>
      rw [hp] at hrun
      simp at hrun
      exact ⟨c, hrun.symm⟩
    | ok s' =>
      rw [hp] at hrun
      by_cases hc : s'.continueIteration
      · simp [hc] at hrun
        exact ih s' e hrun
      · simp [hc] at hrun

/-- Summing pointwise negations negates the sum (helper). -/
lemma list_sum_map_neg {α : Type} (l : List α) (f : α → ℤ) :
    (l.map fun x => -(f x)).sum = -((l.map f).sum) := by
  induction l with
  | nil => simp
  | cons x xs ih => simp [List.sum_cons, ih, neg_add, add_comm]

/-- A sum of nonnegative integers with at least one positive member is
positive (helper). -/
lemma list_sum_map_pos {α : Type} (l : List α) (f : α → ℤ)
    (h0 : ∀ x ∈ l, 0 ≤ f x) (hex : ∃ x ∈ l, 0 < f x) : 0 < (l.map f).sum := by
  induction l with
  | nil => simp at hex
  | cons x xs ih =>
    have hx0 : 0 ≤ f x := h0 x (List.mem_cons_self x xs)
    have hxs0 : ∀ y ∈ xs, 0 ≤ f y := fun y hy => h0 y (List.mem_cons_of_mem x hy)
    have hxs_sum : 0 ≤ (xs.map f).sum := by
      apply List.sum_nonneg
      intro a ha
      rcases List.mem_map.mp ha with ⟨y, hy, rfl⟩
      exact hxs0 y hy
    rcases hex with ⟨y, hy, hpos⟩
    rcases List.mem_cons.mp hy with heq | hmem
    · subst heq
      simp only [List.map_cons, List.sum_cons]
      exact add_pos_of_pos_of_nonneg hpos hxs_sum
    · have hxs_pos := ih hxs0 ⟨y, hmem, hpos⟩
      simp only [List.map_cons, List.sum_cons]
      exact add_pos_of_nonneg_of_pos hx0 hxs_pos

/- ===============   Claim theorems   =============== -/

/-- C1: the pagination loop requests pages of 100 transactions but advances
the offset by the stale responseLength constant of 1000, so consecutive
requests skip 900 history positions: over the 101-transaction history, where
every transaction is strictly newer than the epoch-zero boundary, the loop
terminates with only the first 100 transactions — transaction 100 is lost —
and the very first iteration already moves the offset to 1000 instead of
100. This refutes the claimed accumulator completeness and the claimed
offset advance. -/
theorem iterateRequestTxs_skips_history :
    iterateRequestTxs fetchC1 0 5 = some (Except.ok (historyC1.take 100))
    ∧ historyC1.length = 101
    ∧ (∀ tx ∈ historyC1, (0 : Int) < tx.datetime)
    ∧ postStep fetchC1 0 { transactionsAll := [], offset := 0, continueIteration := true }
        = Except.ok
            { transactionsAll := historyC1.take 100, offset := 1000, continueIteration := true }
    ∧ lastTxC1 ∈ historyC1
    ∧ lastTxC1 ∉ historyC1.take 100
    ∧ responseLength ≠ BITSTAMP_REQUEST_LIMIT := by
  refine ⟨rfl, by decide, by decide, rfl, by decide, by decide, by decide⟩

/-- C2 counterexample: on a page whose first transaction's timestamp equals
the boundary, the scan appends that transaction and keeps going — with the
equal transaction alone the loop is not even marked for termination — because
the source compares with strictly-greater, not greater-or-equal. The claim
says a transaction older than or equal to the boundary is not appended and
marks the loop for termination. -/
theorem scanTxs_appends_boundary_equal :
    scanTxs 500 [txEqBoundary] = ([txEqBoundary], true)
    ∧ scanTxs 500 [txEqBoundary, txOlder] = ([txEqBoundary], false) := by
  decide

/-- C2 amended: the scan stops at the first transaction STRICTLY older than
the boundary — the accumulated prefix is exactly the maximal prefix of
transactions with timestamp greater than or equal to the boundary (so the
stopping transaction and everything after it are not appended), and the loop
is marked for termination exactly when some transaction of the page is
strictly older than the boundary. -/
theorem scanTxs_strictly_older_stops (d : Int) (page : List RawUserTx) :
    (scanTxs d page).1 = page.takeWhile (fun tx => decide (d ≤ tx.datetime))
    ∧ ((scanTxs d page).2 = false ↔ ∃ tx ∈ page, tx.datetime < d) := by
  induction page with
  | nil => simp [scanTxs]
  | cons tx rest ih =>
    by_cases h : d > tx.datetime
    · constructor
      · simp [scanTxs, h, List.takeWhile_cons, not_le.mpr h]
      · constructor
        · intro _
          exact ⟨tx, List.mem_cons_self tx rest, h⟩
        · intro _
          simp [scanTxs, h]
    · have hle : d ≤ tx.datetime := not_lt.mp h
      constructor
      · simp [scanTxs, h, List.takeWhile_cons, hle, ih.1]
      · constructor
        · intro hfalse
          have hrest : (scanTxs d rest).2 = false := by simpa [scanTxs, h] using hfalse
          rcases ih.2.mp hrest with ⟨t, ht, hlt⟩
          exact ⟨t, List.mem_cons_of_mem tx ht, hlt⟩
        · intro hex
          rcases hex with ⟨t, ht, hlt⟩
          have hrest : ∃ t ∈ rest, t.datetime < d := by
            rcases List.mem_cons.mp ht with heq | hmem
            · exact absurd hlt (by rw [heq]; exact not_lt.mpr hle)
            · exact ⟨t, hmem, hlt⟩
          have hres := ih.2.mpr hrest
          simp [scanTxs, h, hres]

/-- C3: if the transport or interpretation of any page fails, the iteration
aborts at once — regardless of the transactions already accumulated in the
loop state, which are discarded, the outcome is exactly the listing error
wrapping the underlying cause and carries no transaction list — and every
error surfaced by listTransactions is such a listing error (the success and
error outcomes being mutually exclusive, no partial results can accompany a
failure). -/
theorem listing_aborts_and_wraps (fetch : Nat → Nat → Except JsError (List RawUserTx))
    (d : Int) (fuel : Nat) (s : IterState) :
    (∀ c, fetch BITSTAMP_REQUEST_LIMIT s.offset = Except.error c →
        iterateAux fetch d (fuel + 1) s = some (Except.error (listingError c)))
    ∧ (∀ e, listTransactions fetch d fuel = some (Except.error e) →
        ∃ c, e = listingError c) := by
  constructor
  · intro c hc
    unfold iterateAux
    simp [postStep, hc]
  · intro e hrun
    unfold listTransactions at hrun
    cases hit : iterateRequestTxs fetch d fuel with
    | none => rw [hit] at hrun; simp at hrun
    | some r =>
      rw [hit] at hrun
      cases r with
      | error e' =>
        simp at hrun
        subst hrun
        exact iterateAux_error_shape fetch d fuel _ _ hit
      | ok txs => simp at hrun

/-- Witness for the listing abort theorem: a transport that fails at once,
started from a loop state that has already accumulated a transaction,
surfaces exactly the wrapped listing error. -/
theorem listing_aborts_and_wraps_witness :
    iterateAux (fun _ _ => Except.error (JsError.str "socket hang up")) 0 1
        { transactionsAll := [txOlder], offset := 0, continueIteration := true }
      = some (Except.error (listingError (JsError.str "socket hang up"))) :=
  (listing_aborts_and_wraps (fun _ _ => Except.error (JsError.str "socket hang up")) 0 0
    { transactionsAll := [txOlder], offset := 0, continueIteration := true }).1
    (JsError.str "socket hang up") rfl

/-- C4: whenever the parsed error body carries an __all__ list containing a
message matching the buy-side or sell-side insufficient-funds pattern, the
interpreter drops the generic server error and returns an insufficient-funds
error whose message is verbatim one of the matching messages of the list;
and on the concrete fixture body whose __all__ list is exactly the BTC
balance message, the result is the insufficient-funds error carrying that
message. -/
theorem interpret_insufficient_funds (raw : String) (l : List String) (m : String)
    (hm : m ∈ l)
    (hmatch : buyInsufficientTest m = true ∨ sellInsufficientTest m = true) :
    (∃ m', m' ∈ l ∧ (buyInsufficientTest m' = true ∨ sellInsufficientTest m' = true) ∧
        interpretErrorBody { rawStringified := raw, allErrors := some l }
          = constructError m' ErrorCode.INSUFFICIENT_FUNDS none)
    ∧ interpretErrorBody { rawStringified := raw, allErrors := some [insufficientFundsFixtureMsg] }
        = constructError insufficientFundsFixtureMsg ErrorCode.INSUFFICIENT_FUNDS none := by
  constructor
  · cases hbuy : l.find? (fun msg => buyInsufficientTest msg) with
    | some m1 =>
      refine ⟨m1, List.mem_of_find?_eq_some hbuy, Or.inl (List.find?_some hbuy), ?_⟩
      simp [interpretErrorBody, hbuy, Option.orElse]
    | none =>
      cases hsell : l.find? (fun msg => sellInsufficientTest msg) with
      | some m2 =>
        refine ⟨m2, List.mem_of_find?_eq_some hsell, Or.inr (List.find?_some hsell), ?_⟩
        simp [interpretErrorBody, hbuy, hsell, Option.orElse]
      | none =>
        exfalso
        rcases hmatch with hb | hs
        · exact absurd hb (by simpa using List.find?_eq_none.mp hbuy m hm)
        · exact absurd hs (by simpa using List.find?_eq_none.mp hsell m hm)
  · rfl

/-- Witness for the insufficient-funds reclassification theorem, at the
fixture message itself. -/
theorem interpret_insufficient_funds_witness :
    ∃ m', m' ∈ [insufficientFundsFixtureMsg]
      ∧ (buyInsufficientTest m' = true ∨ sellInsufficientTest m' = true)
      ∧ interpretErrorBody
            { rawStringified := "stringified", allErrors := some [insufficientFundsFixtureMsg] }
          = constructError m' ErrorCode.INSUFFICIENT_FUNDS none :=
  (interpret_insufficient_funds "stringified" [insufficientFundsFixtureMsg]
    insufficientFundsFixtureMsg (List.mem_singleton.mpr rfl) (Or.inr (by rfl))).1

/-- C5: the normalized trade's base, quote and fee amounts are the sums over
all constituent fills of the converted fill amounts, with every base amount
negated for a sell order (so the total base amount is negative once the fills
are non-trivial) and every quote amount negated for a buy order, and the
normalized state is closed exactly when the lowercased exchange status is
the word finished, else open. -/
theorem getTrade_sums_signs_state (tradeId : Nat) (res : OrderStatusRes) :
    ((getTradeNormalize TYPE_SELL_ORDER tradeId res).baseAmount
        = -((res.transactions.map fun tx => toSmallestSubunit tx.btc Cur.BTC).sum))
    ∧ ((getTradeNormalize TYPE_BUY_ORDER tradeId res).baseAmount
        = (res.transactions.map fun tx => toSmallestSubunit tx.btc Cur.BTC).sum)
    ∧ ((getTradeNormalize TYPE_BUY_ORDER tradeId res).quoteAmount
        = -((res.transactions.map fun tx => toSmallestSubunit tx.usd Cur.USD).sum))
    ∧ ((getTradeNormalize TYPE_SELL_ORDER tradeId res).quoteAmount
        = (res.transactions.map fun tx => toSmallestSubunit tx.usd Cur.USD).sum)
    ∧ (∀ orderType, (getTradeNormalize orderType tradeId res).feeAmount
        = (res.transactions.map fun tx => toSmallestSubunit tx.fee Cur.USD).sum)
    ∧ (∀ orderType, ((getTradeNormalize orderType tradeId res).state = "closed"
        ↔ jsToLower res.status = "finished"))
    ∧ (∀ orderType, jsToLower res.status ≠ "finished"
        → (getTradeNormalize orderType tradeId res).state = "open")
    ∧ ((∀ tx ∈ res.transactions, 0 ≤ toSmallestSubunit tx.btc Cur.BTC)
        → (∃ tx ∈ res.transactions, 0 < toSmallestSubunit tx.btc Cur.BTC)
        → (getTradeNormalize TYPE_SELL_ORDER tradeId res).baseAmount < 0) := by
  refine ⟨?_, ?_, ?_, ?_, ?_, ?_, ?_, ?_⟩
  · simp [getTradeNormalize, TYPE_SELL_ORDER, list_sum_map_neg]
  · simp [getTradeNormalize, TYPE_SELL_ORDER, TYPE_BUY_ORDER]
  · simp [getTradeNormalize, TYPE_BUY_ORDER, list_sum_map_neg]
  · simp [getTradeNormalize, TYPE_SELL_ORDER, TYPE_BUY_ORDER]
  · intro orderType
    simp [getTradeNormalize]
  · intro orderType
    by_cases h : jsToLower res.status = "finished"
    · simp [getTradeNormalize, h]
    · simp [getTradeNormalize, h]
  · intro orderType h
    simp [getTradeNormalize, h]
  · intro h0 hex
    have hsum : 0 < (res.transactions.map fun tx => toSmallestSubunit tx.btc Cur.BTC).sum :=
      list_sum_map_pos res.transactions _ h0 hex
    have hbase : (getTradeNormalize TYPE_SELL_ORDER tradeId res).baseAmount
        = -((res.transactions.map fun tx => toSmallestSubunit tx.btc Cur.BTC).sum) := by
      simp [getTradeNormalize, TYPE_SELL_ORDER, list_sum_map_neg]
    rw [hbase]
    exact neg_neg_of_pos hsum

/-- Witness for the getTrade normalization theorem: on the concrete finished
sell order the base amount is negative and the state is closed. -/
theorem getTrade_sums_signs_state_witness :
    (getTradeNormalize TYPE_SELL_ORDER 1 orderFixture).baseAmount < 0
    ∧ ((getTradeNormalize TYPE_SELL_ORDER 1 orderFixture).state = "closed"
        ↔ jsToLower orderFixture.status = "finished") := by
  have h := getTrade_sums_signs_state 1 orderFixture
  refine ⟨h.2.2.2.2.2.2.2 (by decide) ⟨{ btc := 2, usd := 650, fee := 1 }, by decide, by decide⟩,
    h.2.2.2.2.2.1 TYPE_SELL_ORDER⟩

/-- C6: the transaction normalizer populates exactly one amount/currency
pair — the USD amount in subunits when the parsed BTC amount is exactly
zero, and the BTC amount in subunits otherwise — so the output currency is
USD precisely on a zero BTC amount and BTC precisely on a non-zero one. -/
theorem constructTransaction_currency_selection (t : RawUserTx) :
    (t.btc = 0 →
        (constructTransactionObject t).currency = "USD"
        ∧ (constructTransactionObject t).amount = toSmallestSubunit t.usd Cur.USD)
    ∧ (t.btc ≠ 0 →
        (constructTransactionObject t).currency = "BTC"
        ∧ (constructTransactionObject t).amount = toSmallestSubunit t.btc Cur.BTC)
    ∧ ((constructTransactionObject t).currency = "USD" ↔ t.btc = 0)
    ∧ ((constructTransactionObject t).currency = "BTC" ↔ t.btc ≠ 0) := by
  by_cases h : t.btc = 0
  · refine ⟨fun _ => ⟨?_, ?_⟩, fun hne => absurd h hne, ?_, ?_⟩ <;>
      simp [constructTransactionObject, h]
  · refine ⟨fun heq => absurd heq h, fun _ => ⟨?_, ?_⟩, ?_, ?_⟩ <;>
      simp [constructTransactionObject, h]

/-- Witness for the currency-selection theorem: a deposit of 0 BTC and
25.50 USD normalizes to 2550 USD subunits, and a deposit of 1 BTC normalizes
to BTC. -/
theorem constructTransaction_currency_selection_witness :
    ((constructTransactionObject
        { id := 1, datetime := 10, type := 0, btc := 0, usd := 51 / 2, fee := 0
          order_id := 1 }).currency = "USD"
      ∧ (constructTransactionObject
          { id := 1, datetime := 10, type := 0, btc := 0, usd := 51 / 2, fee := 0
            order_id := 1 }).amount = toSmallestSubunit (51 / 2) Cur.USD)
    ∧ ((constructTransactionObject
        { id := 2, datetime := 10, type := 0, btc := 1, usd := 0, fee := 0
          order_id := 2 }).currency = "BTC") :=
  ⟨(constructTransaction_currency_selection
      { id := 1, datetime := 10, type := 0, btc := 0, usd := 51 / 2, fee := 0
        order_id := 1 }).1 (by decide),
    ((constructTransaction_currency_selection
      { id := 2, datetime := 10, type := 0, btc := 1, usd := 0, fee := 0
        order_id := 2 }).2.1 (by decide)).1⟩

/-- C7: a zero limit price passes placeTrade's validation — the source
guards against a NEGATIVE price only, though its own documentation requires
a strictly positive one — so with a valid base amount of 1 subunit and a
limit price of exactly 0 no validation error is produced and the buy request
is issued to the network. -/
theorem placeTrade_zero_price_accepted :
    placeTradeStep (JSVal.num 1) (JSVal.num 0) "BTC" "USD"
      = EndpointStep.callNet
          { orderType := TYPE_BUY_ORDER
            amountMainUnit := fromSmallestSubunit 1 Cur.BTC
            price := JSVal.num 0 }
    ∧ ∀ e, placeTradeStep (JSVal.num 1) (JSVal.num 0) "BTC" "USD" ≠ EndpointStep.fail e := by
  have hstep : placeTradeStep (JSVal.num 1) (JSVal.num 0) "BTC" "USD"
      = EndpointStep.callNet
          { orderType := TYPE_BUY_ORDER
            amountMainUnit := fromSmallestSubunit 1 Cur.BTC
            price := JSVal.num 0 } := rfl
  refine ⟨hstep, fun e h => ?_⟩
  rw [hstep] at h
  exact EndpointStep.noConfusion h

/-- C8 counterexample: with the API key missing, getBalance surfaces the
bare string from _post — a value that is not an Error object and carries no
machine-readable code — refuting the claim that every surfaced error carries
a stable code. -/
theorem getBalance_missing_key_bare_string :
    getBalance credsMissingKey
        (Except.ok { usd_available := 1, btc_available := 1, usd_balance := 1, btc_balance := 1 })
      = Except.error
          (JsError.str "Must provide key, secret and client ID to make this API request.")
    ∧ hasCode (JsError.str "Must provide key, secret and client ID to make this API request.")
        = false :=
  ⟨rfl, rfl⟩

/-- C8 amended: every error surfaced by getBalance is either — when some
credential is missing — exactly the bare credential string, which carries no
code, or — when the credentials are present — the transport or interpreter
error forwarded to the caller unchanged (so a wrapped cause on it is
preserved); errors built by constructError always carry their code, message
and cause. -/
theorem getBalance_error_shape (c : Credentials) (t : Except JsError BalanceRes) (e : JsError)
    (h : getBalance c t = Except.error e) :
    ((jsFalsyStr c.key || jsFalsyStr c.secret || jsFalsyStr c.clientId) = true
        ∧ e = JsError.str "Must provide key, secret and client ID to make this API request."
        ∧ hasCode e = false)
    ∨ ((jsFalsyStr c.key || jsFalsyStr c.secret || jsFalsyStr c.clientId) = false
        ∧ t = Except.error e
        ∧ ∀ m code cause, e = constructError m code cause →
            hasCode e = true ∧ e = JsError.err m (some code) cause) := by
  by_cases hc : (jsFalsyStr c.key || jsFalsyStr c.secret || jsFalsyStr c.clientId) = true
  · left
    have he : e = JsError.str "Must provide key, secret and client ID to make this API request." := by
      unfold getBalance postCredentialCheck at h
      rw [if_pos hc] at h
      cases h
      rfl
    exact ⟨hc, he, by rw [he]; rfl⟩
  · right
    have hc' := eq_false_of_ne_true hc
    refine ⟨hc', ?_, ?_⟩
    · unfold getBalance postCredentialCheck at h
      rw [if_neg (by simp [hc'])] at h
      cases t with
      | error e' => cases h; rfl
      | ok res => cases h
    · intro m code cause hce
      subst hce
      exact ⟨rfl, rfl⟩

/-- Witness for the amended error-shape theorem: with full credentials a
transport failure is forwarded unchanged. -/
theorem getBalance_error_shape_witness :
    ((jsFalsyStr (some "k") || jsFalsyStr (some "sec") || jsFalsyStr (some "cli")) = true
        ∧ JsError.str "ETIMEDOUT"
            = JsError.str "Must provide key, secret and client ID to make this API request."
        ∧ hasCode (JsError.str "ETIMEDOUT") = false)
    ∨ ((jsFalsyStr (some "k") || jsFalsyStr (some "sec") || jsFalsyStr (some "cli")) = false
        ∧ (Except.error (JsError.str "ETIMEDOUT") : Except JsError BalanceRes)
            = Except.error (JsError.str "ETIMEDOUT")
        ∧ ∀ m code cause, JsError.str "ETIMEDOUT" = constructError m code cause →
            hasCode (JsError.str "ETIMEDOUT") = true
            ∧ JsError.str "ETIMEDOUT" = JsError.err m (some code) cause) :=
  getBalance_error_shape
    { key := some "k", secret := some "sec", clientId := some "cli" }
    (Except.error (JsError.str "ETIMEDOUT")) (JsError.str "ETIMEDOUT") rfl

/-- C9: for every input pair whose uppercased codes are not BTC and USD,
each of the three currency-pair-taking operations fails with its
validation error as its very first step — the step value is a callback with
the error, not a network request. -/
theorem pair_validation_before_network (b q : String)
    (h : jsToUpper b ≠ "BTC" ∨ jsToUpper q ≠ "USD") :
    getTickerStep b q
      = EndpointStep.fail (constructError
          "Bitstamp only supports BTC and USD as base and quote currencies, respectively."
          ErrorCode.MODULE_ERROR none)
    ∧ getOrderBookStep b q
      = EndpointStep.fail (constructError
          "Bitstamp only supports BTC and USD as base and quote currencies, respectively."
          ErrorCode.MODULE_ERROR none)
    ∧ ∀ amt price, placeTradeStep amt price b q
      = EndpointStep.fail (constructError
          "Base and Quote currencies should be BTC and USD, respectively"
          ErrorCode.MODULE_ERROR none) := by
  refine ⟨?_, ?_, fun amt price => ?_⟩
  · simp only [getTickerStep]
    rw [if_pos h]
  · simp only [getOrderBookStep]
    rw [if_pos h]
  · simp only [placeTradeStep]
    rw [if_pos h]

/-- Witness for the pair-validation theorem, at the unsupported pair with
base ETH. -/
theorem pair_validation_before_network_witness :
    getTickerStep "ETH" "USD"
      = EndpointStep.fail (constructError
          "Bitstamp only supports BTC and USD as base and quote currencies, respectively."
          ErrorCode.MODULE_ERROR none)
    ∧ getOrderBookStep "ETH" "USD"
      = EndpointStep.fail (constructError
          "Bitstamp only supports BTC and USD as base and quote currencies, respectively."
          ErrorCode.MODULE_ERROR none)
    ∧ ∀ amt price, placeTradeStep amt price "ETH" "USD"
      = EndpointStep.fail (constructError
          "Base and Quote currencies should be BTC and USD, respectively"
          ErrorCode.MODULE_ERROR none) :=
  pair_validation_before_network "ETH" "USD" (Or.inl (by decide))

/-- C10: the pair validation of getTicker, getOrderBook and placeTrade is
case-insensitive — any spelling whose uppercased codes are BTC and USD
behaves exactly like the canonical pair, validation passes, the operations
proceed (for placeTrade, given arguments passing the amount and price
checks, no validation error is produced), and the outputs carry the
uppercased codes. -/
theorem pair_case_insensitive_passes (b q : String)
    (hb : jsToUpper b = "BTC") (hq : jsToUpper q = "USD") :
    getTickerStep b q = getTickerStep "BTC" "USD"
    ∧ (∃ k, getTickerStep b q = EndpointStep.callNet k
        ∧ ∀ res, (k res).baseCurrency = "BTC" ∧ (k res).quoteCurrency = "USD")
    ∧ getOrderBookStep b q = getOrderBookStep "BTC" "USD"
    ∧ (∃ k, getOrderBookStep b q = EndpointStep.callNet k
        ∧ ∀ res, (k res).baseCurrency = "BTC" ∧ (k res).quoteCurrency = "USD")
    ∧ (∀ amt price, placeTradeStep amt price b q = placeTradeStep amt price "BTC" "USD")
    ∧ (∀ (qa p : ℚ), qa ≠ 0 → 0 ≤ p →
        ∀ e, placeTradeStep (JSVal.num qa) (JSVal.num p) b q ≠ EndpointStep.fail e) := by
  have hB : jsToUpper "BTC" = "BTC" := by decide
  have hU : jsToUpper "USD" = "USD" := by decide
  have hticker : getTickerStep b q = getTickerStep "BTC" "USD" := by
    simp only [getTickerStep, hb, hq, hB, hU]
  have hbook : getOrderBookStep b q = getOrderBookStep "BTC" "USD" := by
    simp only [getOrderBookStep, hb, hq, hB, hU]
  have hplace : ∀ amt price, placeTradeStep amt price b q = placeTradeStep amt price "BTC" "USD" := by
    intro amt price
    simp only [placeTradeStep, hb, hq, hB, hU]
  refine ⟨hticker, ?_, hbook, ?_, hplace, ?_⟩
  · rw [hticker]
    exact ⟨_, rfl, fun res => ⟨rfl, rfl⟩⟩
  · rw [hbook]
    exact ⟨_, rfl, fun res => ⟨rfl, rfl⟩⟩
  · intro qa p hqa hp e hfail
    rw [hplace] at hfail
    simp only [placeTradeStep, hB, hU] at hfail
    rw [if_neg (by simp), if_neg (by simp [isNumberType, hqa]),
      if_neg (by simp [isNumberType, jsLtZero, not_lt.mpr hp])] at hfail
    exact EndpointStep.noConfusion hfail

/-- Witness for the case-insensitivity theorem, at the all-lowercase pair:
the ticker proceeds to the network with uppercased output codes, and a sell
of 2 subunits at price 3 is not rejected by validation. -/
theorem pair_case_insensitive_passes_witness :
    (∃ k, getTickerStep "btc" "usd" = EndpointStep.callNet k
        ∧ ∀ res, (k res).baseCurrency = "BTC" ∧ (k res).quoteCurrency = "USD")
    ∧ ∀ e, placeTradeStep (JSVal.num (-2)) (JSVal.num 3) "btc" "usd" ≠ EndpointStep.fail e :=
  ⟨(pair_case_insensitive_passes "btc" "usd" (by decide) (by decide)).2.1,
    fun e => (pair_case_insensitive_passes "btc" "usd" (by decide) (by decide)).2.2.2.2.2
      (-2) 3 (by norm_num) (by norm_num) e⟩

end Bitstamp
